import Mathlib

/-!
# Overseer worker: a shallow embedding of the test-execution engine

This file embeds the worker sub-command of the overseer remote-protocol
prober (the `workerCmd` code: `notify`, the deduplication key helpers,
`runTest`, and `workerLoop`) as executable Lean definitions, and proves
properties of the embedding.

Modelling conventions:
* Go `time.Duration` values are integers (nanoseconds); `time.Second` is
  the constant `timeSecond`.  Unix timestamps are integers (seconds).
* The redis store is a pair of per-key maps (`String → Option KVEntry`,
  recording last written value and TTL) plus the `overseer.results` list.
* Protocol handlers, DNS resolution, URL-host extraction and input
  sanitization are external collaborators of the worker; they are passed
  to the model as function parameters.  A handler invocation outcome is
  `Option String` (`none` = success, `some e` = failure message `e`).
* Go's `float32` error-rate arithmetic in period-tests is modelled with
  exact rationals; the `NaN > x = false` behaviour of the `0/0` case is
  modelled explicitly (`errRateExceeds`).
-/

namespace Overseer

/-- A redis key entry: the stored value (a Unix timestamp in the worker's
usage) together with the TTL it was last written with. -/
structure KVEntry where
  value : Int
  ttl : Int
deriving DecidableEq, Repr

/-- The worker configuration (the fields of `workerCmd` that the embedded
operations read). -/
structure WorkerConfig where
  ipv4 : Bool
  ipv6 : Bool
  retry : Bool
  retryCount : Nat
  retryDelay : Int
  dedupDuration : Int
  tag : String
  periodTestSleep : Int
  periodTestThreshold : Rat
deriving DecidableEq, Repr

/-- The parsed form of one test line (`test.Test`): the fields the worker
reads.  Durations are nanoseconds; `none` models a nil pointer. -/
structure TestCase where
  input : String
  target : String
  kind : String
  dedupDuration : Option Int
  periodTestDuration : Option Int
  periodTestSleep : Int
  periodTestThreshold : Option Rat
  maxRetries : Option Nat
  maxTargetsCount : Nat
deriving DecidableEq, Repr

/-- One published test result (`test.Result`). -/
structure Result where
  input : String
  target : String
  kind : String
  tag : String
  time : Int
  error : Option String
  details : Option String
  isDedup : Bool := false
  recovered : Bool := false
deriving DecidableEq, Repr

/-- The shared redis state seen by one worker: the two families of
deduplication keys (indexed by fingerprint hash) and the result queue. -/
structure RedisState where
  cache : String → Option KVEntry
  lastAlert : String → Option KVEntry
  results : List Result

/-- Atomic key set with TTL (`redis SET key value EX ttl`). -/
def setKey (m : String → Option KVEntry) (k : String) (v ttl : Int) :
    String → Option KVEntry :=
  fun k2 => if k2 = k then some ⟨v, ttl⟩ else m k2

/-- Atomic key delete (`redis DEL key`). -/
def delKey (m : String → Option KVEntry) (k : String) :
    String → Option KVEntry :=
  fun k2 => if k2 = k then none else m k2

/-- `time.Second` in nanoseconds. -/
def timeSecond : Int := 1000000000

/-- `workerCmd.notify`: build the `test.Result` record for one finished
test, run it through the deduplication logic, and (unless suppressed)
append its encoding to the `overseer.results` queue.

`now` is `time.Now().Unix()`, `hash` is `testResult.Hash()` (the
fingerprint over the sanitized input, an external collaborator), and
`resultError` is the error of the finished test (`none` = pass). -/
def notify (p : WorkerConfig) (st : RedisState) (now : Int) (hash : String)
    (t : TestCase) (resultError : Option String) (details : Option String) :
    RedisState :=
  let testResult : Result :=
    { input := t.input, target := t.target, time := now, kind := t.kind,
      tag := p.tag, details := details, error := resultError }
  match t.dedupDuration with
  | some d =>
    match resultError with
    | some _ =>
      -- save the current notification time, keeping the dedup alive;
      -- *10 so that it's not going to expire anytime soon
      let st1 : RedisState := { st with cache := setKey st.cache hash now (d * 10) }
      match st1.lastAlert hash with
      | some entry =>
        let diffLastAlert := now - entry.value
        let dedupDurationSeconds := d / timeSecond
        if diffLastAlert < dedupDurationSeconds then
          -- not enough time since the last alert: skip the notification
          st1
        else
          -- the generated notification is a duplicate
          let st2 : RedisState :=
            { st1 with lastAlert := setKey st1.lastAlert hash now (d * 10) }
          { st2 with results := st2.results ++ [{ testResult with isDedup := true }] }
      | none =>
        let st2 : RedisState :=
          { st1 with lastAlert := setKey st1.lastAlert hash now (d * 10) }
        { st2 with results := st2.results ++ [testResult] }
    | none =>
      match st.cache hash with
      | some _ =>
        -- a dedup was happening: clear it and mark the test recovered
        let st1 : RedisState :=
          { st with cache := delKey st.cache hash,
                    lastAlert := delKey st.lastAlert hash }
        { st1 with results := st1.results ++ [{ testResult with recovered := true }] }
      | none =>
        { st with results := st.results ++ [testResult] }
  | none =>
    { st with results := st.results ++ [testResult] }

/-- The dedup-default injection at the top of `workerCmd.runTest`: a test
with no deduplication rule receives the worker default, unless it is a
period-test or the worker default is not positive. -/
def injectDedupDefault (p : WorkerConfig) (t : TestCase) : TestCase :=
  if t.dedupDuration = none ∧ t.periodTestDuration = none ∧ 0 < p.dedupDuration then
    { t with dedupDuration := some p.dedupDuration }
  else
    t

/-- The attempt bound of the non-period per-target flow of
`workerCmd.runTest`: `maxAttempts` starts from the worker retry count, is
forced to `attempt + 1 = 1` when worker-level retrying is disabled, and
is overridden by `MaxRetries + 1` when the test carries its own limit. -/
def maxAttemptsFor (p : WorkerConfig) (t : TestCase) : Nat :=
  let m := p.retryCount
  let m := if !p.retry then 1 else m
  match t.maxRetries with
  | some k => k + 1
  | none => m

/-- The retry loop of the non-period per-target flow: starting at
invocation index `idx` with `remaining` allowed attempts, invoke the
handler (`outcomes idx` is the outcome of invocation `idx`), stop on the
first success, otherwise retry while attempts remain.  Returns the number
of handler invocations (the counter `c`) and the last result (`none` when
the loop body never ran, since `var result error` starts nil). -/
def retryLoop (outcomes : Nat → Option String) (idx : Nat) :
    Nat → Nat × Option String
  | 0 => (0, none)
  | n + 1 =>
    match outcomes idx with
    | none => (1, none)
    | some e =>
      if n = 0 then (1, some e)
      else
        let r := retryLoop outcomes (idx + 1) n
        (r.1 + 1, r.2)

/-- One notification issued by the per-target flow (the arguments of a
`testEndFn`-mediated or direct `notify` call that matter to the claims:
the sanitized input, the probed target, the result error and details). -/
structure Emission where
  input : String
  target : String
  error : Option String
  details : Option String
deriving DecidableEq, Repr

/-- The period-test threshold resolution: the worker default, overridden
by the test's own threshold when present. -/
def thresholdFor (p : WorkerConfig) (t : TestCase) : Rat :=
  match t.periodTestThreshold with
  | some th => th
  | none => p.periodTestThreshold

/-- One period-test iteration as observed by the loop body: the handler
outcome (`none` = success) and the formatted elapsed-time string (e.g.
`"12.00ms"`, an outcome of wall-clock measurement). -/
structure PeriodIteration where
  outcome : Option String
  elapsed : String
deriving DecidableEq, Repr

/-- The period-test iteration loop, counting from iteration number `i`
(the Go loop pre-increments, so the first iteration is number 1): returns
`(countFail, countSuccess, errorStrings)`. -/
def periodScan (i : Nat) : List PeriodIteration → Nat × Nat × List String
  | [] => (0, 0, [])
  | it :: rest =>
    let r := periodScan (i + 1) rest
    match it.outcome with
    | some e =>
      (r.1 + 1, r.2.1,
        ("test " ++ toString i ++ " failed, took " ++ it.elapsed ++ ": " ++ e)
          :: r.2.2)
    | none => (r.1, r.2.1 + 1, r.2.2)

/-- `countFail` of a period-test run. -/
def countFailOf (iters : List PeriodIteration) : Nat := (periodScan 1 iters).1

/-- `countFail + countSuccess` (`totalAttempts`) of a period-test run. -/
def totalAttemptsOf (iters : List PeriodIteration) : Nat :=
  (periodScan 1 iters).1 + (periodScan 1 iters).2.1

/-- The collected per-iteration failure log of a period-test run. -/
def errorStringsOf (iters : List PeriodIteration) : List String :=
  (periodScan 1 iters).2.2

/-- `errPercentage > periodTestThreshold` where
`errPercentage := float32(countFail) / float32(totalAttempts)`.  When
`totalAttempts = 0` the Go expression is `NaN`, and `NaN > x` is false
for every `x`; otherwise the float comparison is modelled exactly on
rationals. -/
def errRateExceeds (countFail totalAttempts : Nat) (threshold : Rat) : Bool :=
  if totalAttempts = 0 then false
  else decide ((countFail : Rat) / (totalAttempts : Rat) > threshold)

/-- Go's `%.2f` applied to the exact percentage `100 * countFail / total`:
the value in rounded hundredths (round half to even, as in Go's float
formatting), rendered with two decimals. -/
def roundHalfEven (num den : Nat) : Nat :=
  let q := num / den
  let r := num % den
  if den < 2 * r then q + 1
  else if 2 * r < den then q
  else if q % 2 = 0 then q else q + 1

/-- The percentage of failures in rounded hundredths. -/
def pctHundredths (countFail totalAttempts : Nat) : Nat :=
  roundHalfEven (countFail * 10000) totalAttempts

/-- Render a number of hundredths as a two-decimal string (`6000 ↦ "60.00"`). -/
def renderHundredths (n : Nat) : String :=
  let frac := n % 100
  toString (n / 100) ++ "." ++
    (if frac < 10 then "0" ++ toString frac else toString frac)

/-- The aggregated failure message of a period-test:
`"<fail> tests failed out of <total> (<pct>%)"`. -/
def periodFailMsg (countFail totalAttempts : Nat) : String :=
  toString countFail ++ " tests failed out of " ++ toString totalAttempts ++
    " (" ++ renderHundredths (pctHundredths countFail totalAttempts) ++ "%)"

/-- The `details` payload of a period-test: the joined failure log, present
exactly when some iteration failed. -/
def periodDetails (iters : List PeriodIteration) : Option String :=
  match errorStringsOf iters with
  | [] => none
  | logs =>
    some ("Period-test errors:\n" ++
      String.intercalate "\n" (logs.map (fun l => "- " ++ l)))

/-- The single notification of the period path of the per-target flow:
failure exactly when the error rate strictly exceeds the threshold. -/
def periodEmission (p : WorkerConfig) (t : TestCase)
    (sanitize : TestCase → String) (target : String)
    (iters : List PeriodIteration) : Emission :=
  { input := sanitize t, target := target,
    error :=
      if errRateExceeds (countFailOf iters) (totalAttemptsOf iters)
          (thresholdFor p t) then
        some (periodFailMsg (countFailOf iters) (totalAttemptsOf iters))
      else none,
    details := periodDetails iters }

/-- The single notification of the non-period (retry) path of the
per-target flow: the last attempt's result, no details. -/
def retryEmission (p : WorkerConfig) (t : TestCase)
    (sanitize : TestCase → String) (target : String)
    (outcomes : Nat → Option String) : Emission :=
  { input := sanitize t, target := target,
    error := (retryLoop outcomes 0 (maxAttemptsFor p t)).2,
    details := none }

/-- The per-target flow of `workerCmd.runTest` (the body of the goroutine
launched per probed target): the period path when `PeriodTestDuration` is
set, the retry path otherwise.  Returns the number of handler invocations
and the list of notifications issued (each path calls `testEndFn`, and so
`notify`, exactly once). -/
def runTarget (p : WorkerConfig) (t : TestCase) (sanitize : TestCase → String)
    (target : String) (outcomes : Nat → Option String)
    (iters : List PeriodIteration) : Nat × List Emission :=
  match t.periodTestDuration with
  | some _ =>
    (totalAttemptsOf iters, [periodEmission p t sanitize target iters])
  | none =>
    ((retryLoop outcomes 0 (maxAttemptsFor p t)).1,
      [retryEmission p t sanitize target outcomes])

/-- Address family of one resolved IP: `To4() != nil` distinguishes IPv4
(including IPv4-mapped addresses) from IPv6-only addresses. -/
inductive IPKind where
  | v4
  | v6
deriving DecidableEq, Repr

/-- One address returned by `net.LookupIP`, with its string form. -/
structure IPAddr where
  kind : IPKind
  addr : String
deriving DecidableEq, Repr

/-- The address-family filter of `workerCmd.runTest`: keep IPv4 addresses
when IPv4 testing is enabled and IPv6-only addresses when IPv6 testing is
enabled, preserving resolver order. -/
def filterFamilies (p : WorkerConfig) (ips : List IPAddr) : List String :=
  ips.foldr
    (fun ip acc =>
      match ip.kind with
      | .v4 => if p.ipv4 then ip.addr :: acc else acc
      | .v6 => if p.ipv6 then ip.addr :: acc else acc)
    []

/-- `strings.Contains(testTarget, "://")`. -/
def containsScheme (s : String) : Bool := decide (2 ≤ (s.splitOn "://").length)

/-- The target truncation of `workerCmd.runTest`: when `MaxTargetsCount`
is positive and the resolved set exceeds it, keep the first
`MaxTargetsCount` targets in resolver order. -/
def truncateTargets (t : TestCase) (targets : List String) : List String :=
  if 0 < t.maxTargetsCount ∧ t.maxTargetsCount < targets.length then
    targets.take t.maxTargetsCount
  else
    targets

/-- The per-target fan-out of `workerCmd.runTest`: run the per-target flow
for every probed target and collect the total handler-invocation count and
all notifications.  `outcomes` and `iters` give each target its own
handler-outcome sequence. -/
def fanOut (p : WorkerConfig) (t : TestCase) (sanitize : TestCase → String)
    (outcomes : String → Nat → Option String)
    (iters : String → List PeriodIteration) (targets : List String) :
    Nat × List Emission :=
  targets.foldr
    (fun tgt acc =>
      let r := runTarget p t sanitize tgt (outcomes tgt) (iters tgt)
      (r.1 + acc.1, r.2 ++ acc.2))
    (0, [])

/-- `workerCmd.runTest`: dedup-default injection, target derivation
(hostname resolution with address-family filtering when the handler asks
for it, pass-through otherwise), truncation, and per-target fan-out.

`shouldResolveHostname` is the handler's capability flag, `extractHost`
models `url.Parse(...).Hostname()`, and `resolve` models `net.LookupIP`
(`none` = resolution failure).  On resolution failure the worker notifies
once with error `"failed to resolve name <host>"` (the test's input
sanitized first) and returns without invoking the handler. -/
def runTestExec (p : WorkerConfig) (t0 : TestCase)
    (sanitize : TestCase → String) (shouldResolveHostname : Bool)
    (extractHost : String → String) (resolve : String → Option (List IPAddr))
    (outcomes : String → Nat → Option String)
    (iters : String → List PeriodIteration) : Nat × List Emission :=
  let t := injectDedupDefault p t0
  let testTarget := t.target
  if shouldResolveHostname then
    let host := if containsScheme testTarget then extractHost testTarget
                else testTarget
    match resolve host with
    | none =>
      (0, [{ input := sanitize t, target := t.target,
             error := some ("failed to resolve name " ++ host),
             details := none }])
    | some ips =>
      fanOut p t sanitize outcomes iters
        (truncateTargets t (filterFamilies p ips))
  else
    fanOut p t sanitize outcomes iters (truncateTargets t [testTarget])

/-- `RPush`: append one value at the tail of a redis list. -/
def rpush (q : List String) (v : String) : List String := q ++ [v]

/-- `BLPop` on a redis list: on a non-empty list, pop the head and return
the two-element reply `[queueKey, value]`; an empty list blocks (`none`:
no reply is ever produced in this state). -/
def blpop (key : String) (q : List String) :
    Option (List String × List String) :=
  match q with
  | [] => none
  | v :: rest => some ([key, v], rest)

/-- The guard `len(testObject) >= 1` that `workerCmd.workerLoop` places
around both accesses to `testObject[1]` (the requeue path and the parse
path). -/
def payloadGuard (l : List String) : Bool := decide (1 ≤ l.length)

/-- The payload access `testObject[1]` of `workerCmd.workerLoop`, as a
checked lookup: `none` marks the index-out-of-range panic of the Go
expression. -/
def payloadAccess (l : List String) : Option String := l.get? 1

/-- The post-pop shutdown checkpoint of `workerCmd.workerLoop`: the slot
has popped `testObject` off `overseer.jobs` and then observes the exit
flag, so it requeues the payload `testObject[1]` to the tail of the job
queue (guarded by `len(testObject) >= 1`) and exits.  Returns the job
queue after the slot exits; `none` models a state the step never
completes from (blocked pop, or the out-of-range panic). -/
def workerShutdownStep (q : List String) : Option (List String) :=
  match blpop "overseer.jobs" q with
  | none => none
  | some (testObject, rest) =>
    if payloadGuard testObject then
      match payloadAccess testObject with
      | some payload => some (rpush rest payload)
      | none => none
    else
      some rest

/-- The two Result-schema invariants of the worker: a recovered Result
carries no error, a deduplicated Result always carries one. -/
def resultInv (r : Result) : Prop :=
  (r.recovered = true → r.error = none) ∧ (r.isDedup = true → r.error ≠ none)

/-- A baseline worker configuration for concrete instantiations. -/
def wcfg : WorkerConfig :=
  { ipv4 := true, ipv6 := true, retry := true, retryCount := 5,
    retryDelay := 0, dedupDuration := 0, tag := "t1",
    periodTestSleep := 0, periodTestThreshold := 0 }

/-- A plain test: no dedup rule, no period fields, no per-test retries. -/
def tcPlain : TestCase :=
  { input := "x must run http", target := "x", kind := "http",
    dedupDuration := none, periodTestDuration := none,
    periodTestSleep := 0, periodTestThreshold := none, maxRetries := none,
    maxTargetsCount := 0 }

/-- A test with a five-minute dedup rule. -/
def tcDedup : TestCase :=
  { tcPlain with input := "x must run http with dedup 5m",
                 dedupDuration := some (300 * timeSecond) }

/-- A five-second period-test with a 40% threshold. -/
def tcPeriod : TestCase :=
  { tcPlain with
      input := "dumb must run dumb-test with pt-duration 5s",
      periodTestDuration := some (5 * timeSecond),
      periodTestThreshold := some (2/5 : Rat) }

/-- An empty redis state: no dedup keys, empty result queue. -/
def stEmpty : RedisState :=
  { cache := fun _ => none, lastAlert := fun _ => none, results := [] }

/-- A redis state where fingerprint `"h"` is in a tracked failing state:
both dedup keys were written at time 40. -/
def stTracked : RedisState :=
  { stEmpty with
      cache := fun h => if h = "h" then some ⟨40, 3000 * timeSecond⟩ else none,
      lastAlert := fun h => if h = "h" then some ⟨40, 3000 * timeSecond⟩ else none }

/-- A five-iteration period-test run with outcomes fail, pass, fail, pass,
fail (the spec's end-to-end period-test scenario). -/
def itersW : List PeriodIteration :=
  [⟨some "e1", "1.00ms"⟩, ⟨none, "1.00ms"⟩, ⟨some "e2", "1.00ms"⟩,
   ⟨none, "1.00ms"⟩, ⟨some "e3", "1.00ms"⟩]

/-! ## Theorems -/

/-- C1: for a non-period test with a dedup rule and a stored
last-alert time, a failing result is suppressed (nothing published, only
the cache-time key refreshed) when the last alert is younger than the
dedup window, and published exactly once with `isDedup=true` (with the
last-alert-time key set again) when it is at least the window old; every
key write carries a TTL of ten times the dedup duration. -/
theorem dedup_failure_window (p : WorkerConfig) (st : RedisState) (now : Int)
    (hash : String) (t : TestCase) (d : Int) (e : String) (dtl : Option String)
    (entry : KVEntry)
    (_hper : t.periodTestDuration = none)
    (hd : t.dedupDuration = some d)
    (hla : st.lastAlert hash = some entry) :
    (now - entry.value < d / timeSecond →
        (notify p st now hash t (some e) dtl).results = st.results ∧
        (notify p st now hash t (some e) dtl).cache hash = some ⟨now, d * 10⟩ ∧
        (notify p st now hash t (some e) dtl).lastAlert = st.lastAlert) ∧
    (d / timeSecond ≤ now - entry.value →
        (notify p st now hash t (some e) dtl).results =
          st.results ++
            [{ input := t.input, target := t.target, kind := t.kind,
               tag := p.tag, time := now, error := some e, details := dtl,
               isDedup := true, recovered := false }] ∧
        (notify p st now hash t (some e) dtl).cache hash = some ⟨now, d * 10⟩ ∧
        (notify p st now hash t (some e) dtl).lastAlert hash = some ⟨now, d * 10⟩) := by
  constructor
  · intro hlt
    simp only [notify, hd, hla, setKey]
    rw [if_pos hlt]
    simp [setKey]
  · intro hge
    simp only [notify, hd, hla, setKey]
    rw [if_neg (by omega)]
    simp [setKey]

/-- C1 witness: concrete suppressed and published instances at
`now = 400`, last alert at time 40, five-minute window, and `now = 100`,
last alert at 40, for the two branches respectively. -/
theorem dedup_failure_window_witness :
    (notify wcfg stTracked 400 "h" tcDedup (some "err") none).results =
      [{ input := tcDedup.input, target := tcDedup.target,
         kind := tcDedup.kind, tag := wcfg.tag, time := 400,
         error := some "err", details := none,
         isDedup := true, recovered := false }] :=
  ((dedup_failure_window wcfg stTracked 400 "h" tcDedup (300 * timeSecond)
      "err" none ⟨40, 3000 * timeSecond⟩ rfl rfl rfl).2 (by norm_num [timeSecond])).1

/-- C3 counterexample: with deduplication enabled, a passing test with no
prior dedup cache entry for its fingerprint DOES publish one Result (an
ordinary success record), contradicting the claim that nothing is
published to the result queue. -/
theorem dedup_pass_nocache_counterexample :
    (notify wcfg stEmpty 100 "h" tcDedup none none).results.length = 1 ∧
    (notify wcfg stEmpty 100 "h" tcDedup none none).results.map Result.error
      = [none] :=
  ⟨rfl, rfl⟩

/-- C3 amended: for a test with deduplication enabled that passes and has
no prior dedup cache entry for its fingerprint, exactly one Result is
published to the result queue — an ordinary success record with error
null, `recovered=false` and `isDedup=false` — and no dedup key is
touched. -/
theorem dedup_pass_nocache_publishes (p : WorkerConfig) (st : RedisState)
    (now : Int) (hash : String) (t : TestCase) (d : Int) (dtl : Option String)
    (hd : t.dedupDuration = some d)
    (hc : st.cache hash = none) :
    (notify p st now hash t none dtl).results =
      st.results ++
        [{ input := t.input, target := t.target, kind := t.kind,
           tag := p.tag, time := now, error := none, details := dtl,
           isDedup := false, recovered := false }] ∧
    (notify p st now hash t none dtl).cache = st.cache ∧
    (notify p st now hash t none dtl).lastAlert = st.lastAlert := by
  simp only [notify, hd, hc]
  exact ⟨trivial, trivial, trivial⟩

/-- C3 amended witness: the concrete counterexample state satisfies the
amended statement. -/
theorem dedup_pass_nocache_publishes_witness :
    (notify wcfg stEmpty 100 "h" tcDedup none none).results =
      stEmpty.results ++
        [{ input := tcDedup.input, target := tcDedup.target,
           kind := tcDedup.kind, tag := wcfg.tag, time := 100,
           error := none, details := none,
           isDedup := false, recovered := false }] :=
  (dedup_pass_nocache_publishes wcfg stEmpty 100 "h" tcDedup
    (300 * timeSecond) none rfl rfl).1

/-- C4: with deduplication enabled, the first success after a tracked
failure (cache-time key present) publishes exactly one Result with
`recovered=true` and error null, and afterwards both dedup keys for the
fingerprint are absent. -/
theorem dedup_recovery (p : WorkerConfig) (st : RedisState) (now : Int)
    (hash : String) (t : TestCase) (d : Int) (dtl : Option String)
    (entry : KVEntry)
    (hd : t.dedupDuration = some d)
    (hc : st.cache hash = some entry) :
    (notify p st now hash t none dtl).results =
      st.results ++
        [{ input := t.input, target := t.target, kind := t.kind,
           tag := p.tag, time := now, error := none, details := dtl,
           isDedup := false, recovered := true }] ∧
    (notify p st now hash t none dtl).cache hash = none ∧
    (notify p st now hash t none dtl).lastAlert hash = none := by
  simp only [notify, hd, hc, delKey]
  simp

/-- C4 witness: a concrete recovery from the tracked failing state. -/
theorem dedup_recovery_witness :
    (notify wcfg stTracked 400 "h" tcDedup none none).results =
      stTracked.results ++
        [{ input := tcDedup.input, target := tcDedup.target,
           kind := tcDedup.kind, tag := wcfg.tag, time := 400,
           error := none, details := none,
           isDedup := false, recovered := true }] :=
  (dedup_recovery wcfg stTracked 400 "h" tcDedup (300 * timeSecond) none
    ⟨40, 3000 * timeSecond⟩ rfl rfl).1

/-- C5: `notify` preserves the Result-schema invariants of the result
queue: if every already-queued Result satisfies them, then after any call
every queued Result still satisfies `recovered=true → error` absent and
`isDedup=true → error` present; hence every Result the worker ever
publishes satisfies both. -/
theorem notify_result_invariants (p : WorkerConfig) (st : RedisState)
    (now : Int) (hash : String) (t : TestCase) (err : Option String)
    (dtl : Option String)
    (hst : ∀ r ∈ st.results, resultInv r) :
    ∀ r ∈ (notify p st now hash t err dtl).results, resultInv r := by
  intro r hr
  unfold notify at hr
  rcases hdd : t.dedupDuration with _ | d <;> simp only [hdd] at hr
  · rcases List.mem_append.1 hr with h | h
    · exact hst r h
    · simp only [List.mem_singleton] at h
      subst h
      exact ⟨by simp, by simp⟩
  · rcases err with _ | e <;> simp only at hr
    · rcases hc : st.cache hash with _ | entry <;> simp only [hc] at hr <;>
        rcases List.mem_append.1 hr with h | h
      · exact hst r h
      · simp only [List.mem_singleton] at h
        subst h
        exact ⟨by simp, by simp⟩
      · exact hst r h
      · simp only [List.mem_singleton] at h
        subst h
        exact ⟨by simp, by simp⟩
    · rcases hla : st.lastAlert hash with _ | entry <;> simp only [hla] at hr
      · rcases List.mem_append.1 hr with h | h
        · exact hst r h
        · simp only [List.mem_singleton] at h
          subst h
          exact ⟨by simp, by simp⟩
      · by_cases hlt : now - entry.value < d / timeSecond
        · rw [if_pos hlt] at hr
          exact hst r hr
        · rw [if_neg hlt] at hr
          rcases List.mem_append.1 hr with h | h
          · exact hst r h
          · simp only [List.mem_singleton] at h
            subst h
            exact ⟨by simp, by simp⟩

/-- C5 witness: the one Result published by a concrete failing dedup call
on the empty store satisfies both invariants. -/
theorem notify_result_invariants_witness :
    resultInv { input := tcDedup.input, target := tcDedup.target,
                kind := tcDedup.kind, tag := wcfg.tag, time := 100,
                error := some "boom", details := none,
                isDedup := false, recovered := false } :=
  notify_result_invariants wcfg stEmpty 100 "h" tcDedup (some "boom") none
    (fun r hr => absurd hr (List.not_mem_nil r))
    _ (List.mem_singleton_self _)

/-- The retry loop performs at most `remaining` handler invocations. -/
theorem retryLoop_count_le (outcomes : Nat → Option String) :
    ∀ n idx, (retryLoop outcomes idx n).1 ≤ n := by
  intro n
  induction n with
  | zero => intro idx; simp [retryLoop]
  | succ m ih =>
    intro idx
    rcases h : outcomes idx with _ | e
    · simp [retryLoop, h]
    · by_cases hm : m = 0
      · simp [retryLoop, h, hm]
      · have := ih (idx + 1)
        simp only [retryLoop, h, if_neg hm]
        omega

/-- When at least one attempt is allowed, the retry loop performs at least
one handler invocation. -/
theorem retryLoop_count_pos (outcomes : Nat → Option String) (idx n : Nat)
    (h : 1 ≤ n) : 1 ≤ (retryLoop outcomes idx n).1 := by
  rcases n with _ | m
  · omega
  · rcases ho : outcomes idx with _ | e
    · simp [retryLoop, ho]
    · by_cases hm : m = 0
      · simp [retryLoop, ho, hm]
      · simp only [retryLoop, ho, if_neg hm]
        omega

/-- When the first invocation succeeds, the retry loop stops immediately:
one invocation, success reported. -/
theorem retryLoop_first_success (outcomes : Nat → Option String) (idx n : Nat)
    (h : 1 ≤ n) (ho : outcomes idx = none) :
    retryLoop outcomes idx n = (1, none) := by
  rcases n with _ | m
  · omega
  · simp [retryLoop, ho]

/-- C2 counterexample: the claimed bounds fail on the code in two ways.
With worker retrying enabled, `retryCount = 0` and no per-test
`maxRetries`, an always-failing handler is invoked 0 times (not between 1
and `1 + retryCount = 1`), and the automatic result is a success.  And
with worker retrying disabled but `maxRetries = 1` set on the test, the
handler is invoked twice, not exactly once. -/
theorem retry_bounds_counterexample :
    (retryLoop (fun _ => some "boom") 0
        (maxAttemptsFor { wcfg with retryCount := 0 } tcPlain)).1 = 0 ∧
    1 + ({ wcfg with retryCount := 0 } : WorkerConfig).retryCount = 1 ∧
    (retryLoop (fun _ => some "boom") 0
        (maxAttemptsFor { wcfg with retry := false }
          { tcPlain with maxRetries := some 1 })).1 = 2 ∧
    ({ wcfg with retry := false } : WorkerConfig).retry = false :=
  ⟨rfl, rfl, rfl, rfl⟩

/-- C2 amended: per probed target of a non-period test, the handler is
invoked at most `maxAttempts` times and at least once when
`maxAttempts ≥ 1`, where `maxAttempts` is `maxRetries + 1` when the test
sets `maxRetries` (even when worker retrying is disabled), otherwise the
worker `retryCount` when worker retrying is enabled, otherwise 1; the
loop stops at the first success; and exactly one invocation is made when
worker retrying is disabled and the test sets no `maxRetries`.  (When
retrying is enabled with `retryCount = 0` and no `maxRetries`, zero
invocations are made.) -/
theorem retry_bounds_amended (p : WorkerConfig) (t : TestCase)
    (outcomes : Nat → Option String) :
    (maxAttemptsFor p t = match t.maxRetries with
      | some k => k + 1
      | none => if p.retry then p.retryCount else 1) ∧
    (retryLoop outcomes 0 (maxAttemptsFor p t)).1 ≤ maxAttemptsFor p t ∧
    (1 ≤ maxAttemptsFor p t →
      1 ≤ (retryLoop outcomes 0 (maxAttemptsFor p t)).1) ∧
    (outcomes 0 = none → 1 ≤ maxAttemptsFor p t →
      retryLoop outcomes 0 (maxAttemptsFor p t) = (1, none)) ∧
    (p.retry = false → t.maxRetries = none →
      (retryLoop outcomes 0 (maxAttemptsFor p t)).1 = 1) := by
  refine ⟨?_, retryLoop_count_le outcomes _ 0,
    fun h => retryLoop_count_pos outcomes 0 _ h,
    fun ho h => retryLoop_first_success outcomes 0 _ h ho, ?_⟩
  · rcases hmr : t.maxRetries with _ | k <;>
      rcases hre : p.retry <;> simp [maxAttemptsFor, hmr, hre]
  · intro hre hmr
    have hone : maxAttemptsFor p t = 1 := by simp [maxAttemptsFor, hre, hmr]
    rw [hone]
    rcases ho : outcomes 0 with _ | e <;> simp [retryLoop, ho]

/-- C2 amended witness: a concrete first-try success under the baseline
worker configuration performs exactly one invocation. -/
theorem retry_bounds_amended_witness :
    retryLoop (fun _ => none) 0 (maxAttemptsFor wcfg tcPlain) = (1, none) :=
  (retry_bounds_amended wcfg tcPlain (fun _ => none)).2.2.2.1 rfl (by decide)

/-- C6: a test with no dedup rule of its own receives the worker-level
default dedup duration exactly when it is not a period-test and the
worker default is strictly positive; a period-test is left untouched and
keeps running with no deduplication. -/
theorem dedup_default_rules (p : WorkerConfig) (t : TestCase)
    (hnone : t.dedupDuration = none) :
    (t.periodTestDuration = none → 0 < p.dedupDuration →
        (injectDedupDefault p t).dedupDuration = some p.dedupDuration) ∧
    (t.periodTestDuration ≠ none →
        injectDedupDefault p t = t ∧
        (injectDedupDefault p t).dedupDuration = none) := by
  constructor
  · intro hper hpos
    simp [injectDedupDefault, hnone, hper, hpos]
  · intro hper
    have : injectDedupDefault p t = t := by
      simp [injectDedupDefault, hper]
    refine ⟨this, ?_⟩
    rw [this]
    exact hnone

/-- C6 witness: with a one-minute worker default, a plain test receives
it and a period-test does not. -/
theorem dedup_default_rules_witness :
    (injectDedupDefault { wcfg with dedupDuration := 60 * timeSecond }
        tcPlain).dedupDuration = some (60 * timeSecond) ∧
    (injectDedupDefault { wcfg with dedupDuration := 60 * timeSecond }
        tcPeriod).dedupDuration = none :=
  ⟨(dedup_default_rules { wcfg with dedupDuration := 60 * timeSecond }
      tcPlain rfl).1 rfl (by norm_num [timeSecond]),
   ((dedup_default_rules { wcfg with dedupDuration := 60 * timeSecond }
      tcPeriod rfl).2 (by simp [tcPeriod, tcPlain])).2⟩

/-- The period loop appends exactly one failure-log line per failed
iteration. -/
theorem periodScan_logs_length (l : List PeriodIteration) :
    ∀ i, ((periodScan i l).2.2).length = (periodScan i l).1 := by
  induction l with
  | nil => intro i; simp [periodScan]
  | cons it rest ih =>
    intro i
    rcases h : it.outcome with _ | e <;> simp [periodScan, h, ih]

/-- C7: for a period-test with at least one completed iteration and a
nonnegative threshold, the per-target flow emits exactly one Result; it
is a failure exactly when the failure rate `fail/total` strictly exceeds
the threshold, in which case its error is
`"<fail> tests failed out of <total> (<pct>%)"` and its details field is
the joined per-iteration failure log; otherwise it is a success. -/
theorem period_single_result (p : WorkerConfig) (t : TestCase)
    (sanitize : TestCase → String) (target : String)
    (outcomes : Nat → Option String) (iters : List PeriodIteration)
    (hper : t.periodTestDuration.isSome = true)
    (hpos : 0 < totalAttemptsOf iters)
    (hth : 0 ≤ thresholdFor p t) :
    ((runTarget p t sanitize target outcomes iters).2).length = 1 ∧
    ∀ e ∈ (runTarget p t sanitize target outcomes iters).2,
      (e.error ≠ none ↔
        thresholdFor p t <
          (countFailOf iters : Rat) / (totalAttemptsOf iters : Rat)) ∧
      (thresholdFor p t <
          (countFailOf iters : Rat) / (totalAttemptsOf iters : Rat) →
        e.error = some (periodFailMsg (countFailOf iters)
          (totalAttemptsOf iters)) ∧
        e.details = some ("Period-test errors:\n" ++
          String.intercalate "\n"
            ((errorStringsOf iters).map (fun l => "- " ++ l)))) ∧
      (¬ thresholdFor p t <
          (countFailOf iters : Rat) / (totalAttemptsOf iters : Rat) →
        e.error = none) := by
  obtain ⟨d, hd⟩ := Option.isSome_iff_exists.1 hper
  have htot : totalAttemptsOf iters ≠ 0 := Nat.pos_iff_ne_zero.1 hpos
  have hrate : errRateExceeds (countFailOf iters) (totalAttemptsOf iters)
      (thresholdFor p t) = true ↔
      thresholdFor p t <
        (countFailOf iters : Rat) / (totalAttemptsOf iters : Rat) := by
    simp [errRateExceeds, htot]
  refine ⟨by simp [runTarget, hd], ?_⟩
  intro e he
  simp only [runTarget, hd, List.mem_singleton] at he
  subst he
  refine ⟨?_, ?_, ?_⟩
  · by_cases hx : errRateExceeds (countFailOf iters) (totalAttemptsOf iters)
        (thresholdFor p t) = true
    · simp [periodEmission, hx, hrate.1 hx]
    · have := (not_iff_not.2 hrate).1 hx
      simp only [Bool.not_eq_true] at hx
      simp [periodEmission, hx, this]
  · intro hexc
    have hx := hrate.2 hexc
    have hcf : 0 < countFailOf iters := by
      rcases Nat.eq_zero_or_pos (countFailOf iters) with h0 | h0
      · exfalso
        rw [h0] at hexc
        simp only [Nat.cast_zero, zero_div] at hexc
        exact absurd hexc (not_lt.2 hth)
      · exact h0
    have hlog : errorStringsOf iters ≠ [] := by
      intro hnil
      have := periodScan_logs_length iters 1
      rw [show errorStringsOf iters = (periodScan 1 iters).2.2 from rfl] at hnil
      rw [hnil] at this
      simp only [List.length_nil] at this
      rw [show countFailOf iters = (periodScan 1 iters).1 from rfl] at hcf
      omega
    obtain ⟨l0, ls, hcons⟩ := List.exists_cons_of_ne_nil hlog
    constructor
    · simp [periodEmission, hx]
    · simp only [periodEmission, hx, if_true]
      rw [show periodDetails iters =
          match errorStringsOf iters with
          | [] => none
          | logs => some ("Period-test errors:\n" ++
              String.intercalate "\n" (logs.map (fun l => "- " ++ l)))
        from rfl, hcons]
  · intro hnexc
    have hx : errRateExceeds (countFailOf iters) (totalAttemptsOf iters)
        (thresholdFor p t) = false := by
      rw [← Bool.not_eq_true]
      exact fun hc => hnexc (hrate.1 hc)
    simp [periodEmission, hx]

/-- C7 witness: the spec's period-test scenario — five iterations, three
failures, 40% threshold — yields exactly one emitted Result. -/
theorem period_single_result_witness :
    ((runTarget wcfg tcPeriod (fun t0 => t0.input) "1.2.3.4"
        (fun _ => none) itersW).2).length = 1 :=
  (period_single_result wcfg tcPeriod (fun t0 => t0.input) "1.2.3.4"
    (fun _ => none) itersW rfl (by decide)
    (by norm_num [thresholdFor, tcPeriod, tcPlain])).1

/-- Dedup-default injection never changes the target of a test. -/
theorem injectDedupDefault_target (p : WorkerConfig) (t : TestCase) :
    (injectDedupDefault p t).target = t.target := by
  unfold injectDedupDefault
  split <;> rfl

/-- C8: for a hostname-resolving handler, when name resolution of the
derived host fails, the executor emits exactly one Result whose error is
`"failed to resolve name <host>"`, built from the sanitized input, and
returns with zero protocol-handler invocations. -/
theorem resolve_failure_emission (p : WorkerConfig) (t : TestCase)
    (sanitize : TestCase → String) (extractHost : String → String)
    (resolve : String → Option (List IPAddr))
    (outcomes : String → Nat → Option String)
    (iters : String → List PeriodIteration)
    (hres : resolve (if containsScheme t.target then extractHost t.target
        else t.target) = none) :
    runTestExec p t sanitize true extractHost resolve outcomes iters =
      (0, [{ input := sanitize (injectDedupDefault p t), target := t.target,
             error := some ("failed to resolve name " ++
               (if containsScheme t.target then extractHost t.target
                else t.target)),
             details := none }]) := by
  simp only [runTestExec, injectDedupDefault_target, if_true, hres]

/-- C8 witness: an identity host extraction and an always-failing
resolver over the plain test. -/
theorem resolve_failure_emission_witness :
    runTestExec wcfg tcPlain (fun t0 => t0.input) true (fun s => s)
        (fun _ => none) (fun _ _ => none) (fun _ => []) =
      (0, [{ input := (fun (t0 : TestCase) => t0.input)
               (injectDedupDefault wcfg tcPlain),
             target := tcPlain.target,
             error := some ("failed to resolve name " ++
               (if containsScheme tcPlain.target
                then (fun (s : String) => s) tcPlain.target
                else tcPlain.target)),
             details := none }]) :=
  resolve_failure_emission wcfg tcPlain (fun t0 => t0.input) (fun s => s)
    (fun _ => none) (fun _ _ => none) (fun _ => []) rfl

/-- C9: when the shutdown signal is observed by a worker slot after it
popped job `j` from the job queue and before executing it, the slot
pushes the payload back onto the tail of the job queue, so `j` is present
in the queue after the slot exits and the popped job is not dropped. -/
theorem shutdown_requeue (j : String) (rest : List String) :
    workerShutdownStep (j :: rest) = some (rpush rest j) ∧ j ∈ rpush rest j := by
  constructor
  · rfl
  · simp [rpush]

/-- C10: both accesses to `testObject[1]` in the worker loop sit behind
the guard `len(testObject) >= 1`; the guard passes on a one-element list,
where the index-1 access is out of bounds, and the access is in bounds
exactly when the popped list has length at least 2. -/
theorem payload_guard_gap :
    payloadGuard ["overseer.jobs"] = true ∧
    (["overseer.jobs"] : List String).length = 1 ∧
    payloadAccess ["overseer.jobs"] = none ∧
    (∀ l : List String, (payloadAccess l).isSome = true ↔ 2 ≤ l.length) := by
  refine ⟨rfl, rfl, rfl, ?_⟩
  intro l
  rcases l with _ | ⟨a, _ | ⟨b, tl⟩⟩ <;> simp [payloadAccess]

end Overseer
